import Mathlib

/-!
Verification of the `StaticPoolAllocator` / `SimpleForwardList` program
(`src/main.cpp`) via a shallow embedding.

Embedding conventions:
* A pool's mutable static state (`StaticPoolAllocator<T,N>::state_`) is a
  `PoolState`: the `pool` heap block is tracked by the flag `poolAllocated`
  (is `state_.pool` non-null), `used` is the slot counter, and the intrusive
  free list (head pointer `state_.free_list` together with the `FreeNode::next`
  field written into each freed slot) is represented head-first as the list of
  freed slot indices `free_list`.
* A pointer into the pool is a slot index; `Ptr := Option Nat`, with `none`
  standing for `nullptr`.
* Both `throw std::bad_alloc()` sites map to `AllocError.badAlloc`; C++
  exceptions leave the static state as mutated so far, so `allocate` returns
  the resulting state alongside the `Except` result.
-/

inductive AllocError where
  | badAlloc
deriving DecidableEq, Repr

/-- `T*` in the allocator interface: `none` is `nullptr`, `some i` is the
address of slot `i` of the pool. -/
abbrev Ptr := Option Nat

/-- `StaticPoolAllocator<T,N>::State`: `poolAllocated` models
`state_.pool != nullptr`, `used` the carved-out count, `free_list` the
intrusive chain of freed slot indices, head first. -/
structure PoolState where
  poolAllocated : Bool
  used : Nat
  free_list : List Nat
deriving DecidableEq, Repr

/-- The default-initialized static `state_{}`: null pool, `used = 0`,
empty free list. -/
def initialState : PoolState := ⟨false, 0, []⟩

/-- `ensure_pool_()`: if the block is not yet allocated, allocate it and
reset `used` and `free_list`. -/
def ensurePool (s : PoolState) : PoolState :=
  if s.poolAllocated then s else ⟨true, 0, []⟩

/-- `StaticPoolAllocator<T,N>::allocate(n)` for a pool of capacity `N`.
Returns the result (`Except`) and the static state after the call,
including the state left behind when an exception is thrown. -/
def allocate (N : Nat) (n : Nat) (s : PoolState) : Except AllocError Ptr × PoolState :=
  if n = 0 then (Except.ok none, s)
  else if n ≠ 1 then (Except.error AllocError.badAlloc, s)
  else
    let s1 := ensurePool s
    match s1.free_list with
    | i :: rest => (Except.ok (some i), { s1 with free_list := rest })
    | [] =>
      if s1.used < N then (Except.ok (some s1.used), { s1 with used := s1.used + 1 })
      else (Except.error AllocError.badAlloc, s1)

/-- `StaticPoolAllocator<T,N>::deallocate(p, n)`: reinterpret slot `p` as a
`FreeNode` and push it on the free-list head; the size argument is unnamed
and unused in the source. -/
def deallocate (p : Nat) (_n : Nat) (s : PoolState) : PoolState :=
  { s with free_list := p :: s.free_list }

/-- `k` consecutive `allocate(1)` calls; collects each call's result and
threads the static state through. -/
def allocRun (N : Nat) : Nat → PoolState → List (Except AllocError Ptr) × PoolState
  | 0, s => ([], s)
  | k + 1, s =>
    let r := allocate N 1 s
    let rest := allocRun N k r.2
    (r.1 :: rest.1, rest.2)

/-- The expected results of `k` fresh-tail allocations starting at slot `u`:
`ok u, ok (u+1), …`. -/
def okList (u : Nat) : Nat → List (Except AllocError Ptr)
  | 0 => []
  | k + 1 => Except.ok (some u) :: okList (u + 1) k

/-- `true` iff every result in the list is `ok (some i)` with `i < N`. -/
def allOkBelow (N : Nat) (rs : List (Except AllocError Ptr)) : Bool :=
  rs.all fun r =>
    match r with
    | Except.ok (some i) => decide (i < N)
    | _ => false

-- Basic computation lemmas about `allocate`.

theorem allocate_one_initialized (N : Nat) (s : PoolState)
    (hpa : s.poolAllocated = true) :
    allocate N 1 s =
      match s.free_list with
      | i :: rest => (Except.ok (some i), { s with free_list := rest })
      | [] =>
        if s.used < N then (Except.ok (some s.used), { s with used := s.used + 1 })
        else (Except.error AllocError.badAlloc, s) := by
  have he : ensurePool s = s := by simp [ensurePool, hpa]
  simp only [allocate, he]
  norm_num

theorem allocRun_tail (N : Nat) :
    ∀ k u, u + k ≤ N →
      allocRun N k ⟨true, u, []⟩ = (okList u k, ⟨true, u + k, []⟩) := by
  intro k
  induction k with
  | zero => intro u _; simp [allocRun, okList]
  | succ k ih =>
    intro u hu
    have hlt : u < N := by omega
    have h1 : allocate N 1 (⟨true, u, []⟩ : PoolState) =
        (Except.ok (some u), ⟨true, u + 1, []⟩) := by
      rw [allocate_one_initialized N ⟨true, u, []⟩ rfl]
      simp [hlt]
    have h2 := ih (u + 1) (by omega)
    simp [allocRun, h1, h2, okList]
    omega

theorem allocRun_fresh (N k : Nat) (h1 : 1 ≤ k) (hk : k ≤ N) :
    allocRun N k initialState = (okList 0 k, ⟨true, k, []⟩) := by
  cases k with
  | zero => omega
  | succ k =>
    have hstep : allocate N 1 initialState =
        (Except.ok (some 0), ⟨true, 1, []⟩) := by
      have hN : 0 < N := by omega
      simp [allocate, initialState, ensurePool, hN]
    have htail := allocRun_tail N k 1 (by omega)
    simp [allocRun, hstep, htail, okList]
    omega

theorem okList_mem (k : Nat) :
    ∀ u r, r ∈ okList u k → ∃ i, i < u + k ∧ r = Except.ok (some i) := by
  induction k with
  | zero => intro u r hr; simp [okList] at hr
  | succ k ih =>
    intro u r hr
    simp only [okList, List.mem_cons] at hr
    rcases hr with hr | hr
    · exact ⟨u, by omega, hr⟩
    · obtain ⟨i, hi, hri⟩ := ih (u + 1) r hr
      exact ⟨i, by omega, hri⟩

theorem okList_get (k : Nat) :
    ∀ u j, j < k → (okList u k)[j]? = some (Except.ok (some (u + j))) := by
  induction k with
  | zero => intro u j hj; omega
  | succ k ih =>
    intro u j hj
    cases j with
    | zero => simp [okList]
    | succ j =>
      have := ih (u + 1) j (by omega)
      simp only [okList, List.getElem?_cons_succ, this]
      congr 3
      omega

theorem allOkBelow_okList (N : Nat) (k : Nat) (u : Nat) (h : u + k ≤ N) :
    allOkBelow N (okList u k) = true := by
  simp only [allOkBelow, List.all_eq_true]
  intro r hr
  obtain ⟨i, hi, hri⟩ := okList_mem k u r hr
  subst hri
  simp only [decide_eq_true_eq]
  omega

-- Claim theorems.

/-- C1: for every capacity `N ≥ 1`, starting from the fresh pool, the first
`N` `allocate(1)` calls all succeed with in-bounds slot pointers, and the
`(N+1)`-th call fails by throwing `std::bad_alloc` (the exhaustion failure),
returning no pointer and leaving the pool state exactly as it was. -/
theorem c1_alloc_exhaustion (N : Nat) (h : 1 ≤ N) :
    allOkBelow N (allocRun N N initialState).1 = true ∧
    (allocRun N N initialState).1.length = N ∧
    allocate N 1 (allocRun N N initialState).2 =
      (Except.error AllocError.badAlloc, (allocRun N N initialState).2) := by
  have hrun := allocRun_fresh N N h (le_refl N)
  rw [hrun]
  refine ⟨allOkBelow_okList N N 0 (by omega), ?_, ?_⟩
  · have : ∀ k u, (okList u k).length = k := by
      intro k
      induction k with
      | zero => intro u; simp [okList]
      | succ k ih => intro u; simp [okList, ih]
    simp [this]
  · rw [allocate_one_initialized N ⟨true, N, []⟩ rfl]
    simp

/-- C1 witness at `N = 3`. -/
theorem c1_witness :
    allOkBelow 3 (allocRun 3 3 initialState).1 = true ∧
    (allocRun 3 3 initialState).1.length = 3 ∧
    allocate 3 1 (allocRun 3 3 initialState).2 =
      (Except.error AllocError.badAlloc, (allocRun 3 3 initialState).2) :=
  c1_alloc_exhaustion 3 (by decide)

/-- C2: whenever the free list is non-empty, `allocate(1)` pops its head in
preference to the untouched tail; concretely, after `N` fresh allocations
(the `j`-th of which returned slot `j`), deallocating slot `j` and allocating
again returns exactly slot `j` and restores the pre-deallocation state. -/
theorem c2_free_list_reuse (N j i : Nat) (rest : List Nat) (s : PoolState)
    (hpa : s.poolAllocated = true) (hfl : s.free_list = i :: rest)
    (hj : j < N) :
    allocate N 1 s = (Except.ok (some i), { s with free_list := rest }) ∧
    (allocRun N N initialState).1[j]? = some (Except.ok (some j)) ∧
    allocate N 1 (deallocate j 1 (allocRun N N initialState).2) =
      (Except.ok (some j), (allocRun N N initialState).2) := by
  have hrun := allocRun_fresh N N (by omega) (le_refl N)
  refine ⟨?_, ?_, ?_⟩
  · rw [allocate_one_initialized N s hpa, hfl]
  · rw [hrun]
    simpa using okList_get N 0 j hj
  · rw [hrun]
    have hd : deallocate j 1 (⟨true, N, []⟩ : PoolState) = ⟨true, N, [j]⟩ := rfl
    rw [hd, allocate_one_initialized N ⟨true, N, [j]⟩ rfl]

/-- C2 witness at `N = 3`, `j = 1`, with a concrete non-empty free list. -/
theorem c2_witness :
    allocate 3 1 ⟨true, 3, [2]⟩ =
      (Except.ok (some 2), { (⟨true, 3, [2]⟩ : PoolState) with free_list := [] }) ∧
    (allocRun 3 3 initialState).1[1]? = some (Except.ok (some 1)) ∧
    allocate 3 1 (deallocate 1 1 (allocRun 3 3 initialState).2) =
      (Except.ok (some 1), (allocRun 3 3 initialState).2) :=
  c2_free_list_reuse 3 1 2 [] ⟨true, 3, [2]⟩ rfl rfl (by decide)

/-- C3 counterexample: on a full capacity-1 pool, an oversized request
`allocate(2)` and an exhausted request `allocate(1)` fail with the very same
error value (both throw `std::bad_alloc`), so the oversized-request failure
is not a failure kind distinct from the exhaustion failure and the caller
cannot distinguish the two. -/
theorem c3_counterexample :
    (allocate 1 2 ⟨true, 1, []⟩).1 = (allocate 1 1 ⟨true, 1, []⟩).1 ∧
    (allocate 1 2 ⟨true, 1, []⟩).1 = Except.error AllocError.badAlloc := by
  constructor <;> rfl

/-- C3 amended: for every capacity and every pool state, `allocate(n)` with
`n > 1` always fails, leaving the state untouched; the failure is the same
`std::bad_alloc` thrown on exhaustion, not a distinct kind. -/
theorem c3_oversized_request (N n : Nat) (s : PoolState) (h : 2 ≤ n) :
    allocate N n s = (Except.error AllocError.badAlloc, s) := by
  have h0 : ¬ n = 0 := by omega
  have h1 : n ≠ 1 := by omega
  simp [allocate, h0, h1]

/-- C3 witness at `N = 10`, `n = 5`, on the fresh state. -/
theorem c3_witness :
    allocate 10 5 initialState = (Except.error AllocError.badAlloc, initialState) :=
  c3_oversized_request 10 5 initialState (by decide)

/-- C4: for every capacity and every pool state, `allocate(0)` returns the
null pointer, does not fail, and returns with the pool state (pool block,
`used`, `free_list`) exactly unchanged. -/
theorem c4_allocate_zero (N : Nat) (s : PoolState) :
    allocate N 0 s = (Except.ok none, s) := rfl

/-- C6: for every slot `p` and size argument `n`, `deallocate(p, n)` pushes
`p` onto the free-list head and changes nothing else: `used` is unchanged
(never decreased), the storage block stays allocated, and no state component
other than the free list is touched. -/
theorem c6_deallocate_frame (p n : Nat) (s : PoolState) :
    (deallocate p n s).free_list = p :: s.free_list ∧
    (deallocate p n s).used = s.used ∧
    (deallocate p n s).poolAllocated = s.poolAllocated :=
  ⟨rfl, rfl, rfl⟩

/-- C10: `deallocate` never inspects its element-count argument: for any slot
`p`, any two counts, and any pool state, the resulting states are identical. -/
theorem c10_deallocate_ignores_count (p n1 n2 : Nat) (s : PoolState) :
    deallocate p n1 s = deallocate p n2 s := rfl

-- Allocator handle identity and equality (C5, C8).

/-- Element types instantiated with `StaticPoolAllocator` in the program:
`int`, the forward-list node wrapping `int`, `std::pair<const int,int>`,
and the map's internal node wrapping that pair. -/
inductive TypeTag where
  | tInt
  | tListNode
  | tMapPair
  | tMapNode
deriving DecidableEq, Repr

/-- `operator==` between `StaticPoolAllocator<T,N1>` and
`StaticPoolAllocator<U,N2>`. The member template only accepts an argument of
the same capacity `N`, so a comparison across different capacities is
ill-formed (it does not compile); this is modelled by `none`. For equal
capacities the source returns `std::is_same_v<T,U>`. -/
def allocEq (t1 : TypeTag) (n1 : Nat) (t2 : TypeTag) (n2 : Nat) : Option Bool :=
  if n1 = n2 then some (decide (t1 = t2)) else none

/-- C5 counterexample: two handles of the same element type `int` but
capacities 5 and 7 do not compare unequal — no comparison between them
exists at all (the source `operator==` is only defined for operands of the
same capacity), so the claim that differing-capacity handles compare
unequal fails. -/
theorem c5_counterexample :
    allocEq TypeTag.tInt 5 TypeTag.tInt 7 ≠ some false := by decide

/-- C5 amended: for handles of the same capacity, equality holds iff the two
element types are the same (`is_same_v<T,U>`); handles of different
capacities admit no comparison at all (the comparison is ill-formed rather
than returning unequal). -/
theorem c5_handle_equality (t1 t2 : TypeTag) (n m1 m2 : Nat) (hne : m1 ≠ m2) :
    (t1 = t2 → allocEq t1 n t2 n = some true) ∧
    (t1 ≠ t2 → allocEq t1 n t2 n = some false) ∧
    allocEq t1 m1 t2 m2 = none := by
  refine ⟨?_, ?_, ?_⟩
  · intro h; simp [allocEq, h]
  · intro h; simp [allocEq, h]
  · simp [allocEq, hne]

/-- C5 witness: same type and capacity compare equal, different type at the
same capacity compares unequal, and capacities 5 and 7 admit no comparison. -/
theorem c5_witness :
    allocEq TypeTag.tInt 5 TypeTag.tInt 5 = some true ∧
    allocEq TypeTag.tInt 5 TypeTag.tListNode 5 = some false ∧
    allocEq TypeTag.tInt 5 TypeTag.tInt 7 = none :=
  ⟨(c5_handle_equality TypeTag.tInt TypeTag.tInt 5 5 7 (by decide)).1 rfl,
   (c5_handle_equality TypeTag.tInt TypeTag.tListNode 5 5 7 (by decide)).2.1 (by decide),
   (c5_handle_equality TypeTag.tInt TypeTag.tInt 5 5 7 (by decide)).2.2⟩

-- Operation sequences over one pool (C7).

/-- One client-visible pool operation: an `allocate(n)` request or a
`deallocate(p, cnt)` request. -/
inductive PoolOp where
  | alloc (n : Nat)
  | dealloc (p : Nat) (cnt : Nat)

/-- Apply one operation to the pool state (the result value of `allocate`
is dropped, only the state evolution is kept). -/
def applyOp (N : Nat) (op : PoolOp) (s : PoolState) : PoolState :=
  match op with
  | PoolOp.alloc n => (allocate N n s).2
  | PoolOp.dealloc p cnt => deallocate p cnt s

/-- Run a sequence of pool operations from a starting state. -/
def runOps (N : Nat) : List PoolOp → PoolState → PoolState
  | [], s => s
  | op :: ops, s => runOps N ops (applyOp N op s)

/-- States occurring in real executions: `used` is within capacity, and
before the lazy pool allocation `used` is still zero. -/
def PoolInv (N : Nat) (s : PoolState) : Prop :=
  s.used ≤ N ∧ (s.poolAllocated = false → s.used = 0)

theorem allocate_one_state (N : Nat) (s : PoolState) :
    (allocate N 1 s).2 =
      match (ensurePool s).free_list with
      | _ :: rest => { ensurePool s with free_list := rest }
      | [] =>
        if (ensurePool s).used < N then
          { ensurePool s with used := (ensurePool s).used + 1 }
        else ensurePool s := by
  simp only [allocate]
  norm_num
  cases hfl : (ensurePool s).free_list with
  | cons i rest => rfl
  | nil =>
    by_cases hu : (ensurePool s).used < N
    · simp only [if_pos hu]
    · simp only [if_neg hu]

theorem applyOp_step (N : Nat) (op : PoolOp) (s : PoolState)
    (hs : PoolInv N s) :
    s.used ≤ (applyOp N op s).used ∧ PoolInv N (applyOp N op s) := by
  obtain ⟨hle, hz⟩ := hs
  cases op with
  | dealloc p cnt =>
    exact ⟨le_refl _, hle, fun hpa => hz hpa⟩
  | alloc n =>
    by_cases h0 : n = 0
    · subst h0
      exact ⟨le_refl _, hle, hz⟩
    · by_cases h1 : n = 1
      · subst h1
        show s.used ≤ (allocate N 1 s).2.used ∧ PoolInv N (allocate N 1 s).2
        rw [allocate_one_state N s]
        cases hpa : s.poolAllocated with
        | true =>
          have he : ensurePool s = s := by simp [ensurePool, hpa]
          rw [he]
          cases hfl : s.free_list with
          | cons i rest =>
            exact ⟨le_refl _, hle, by simp [hpa]⟩
          | nil =>
            by_cases hu : s.used < N
            · simp only [if_pos hu]
              exact ⟨Nat.le_succ _, hu, by simp [hpa]⟩
            · simp only [if_neg hu]
              exact ⟨le_refl _, hle, by simp [hpa]⟩
        | false =>
          have he : ensurePool s = (⟨true, 0, []⟩ : PoolState) := by
            simp [ensurePool, hpa]
          rw [he]
          have hu0 : s.used = 0 := hz hpa
          show s.used ≤ (if 0 < N then (⟨true, 1, []⟩ : PoolState) else ⟨true, 0, []⟩).used ∧ _
          by_cases hu : 0 < N
          · simp only [if_pos hu]
            exact ⟨show s.used ≤ 1 by omega, show 1 ≤ N from hu, by simp⟩
          · simp only [if_neg hu]
            exact ⟨show s.used ≤ 0 by omega, Nat.zero_le N, by simp⟩
      · have hne : n ≠ 1 := h1
        show s.used ≤ (allocate N n s).2.used ∧ PoolInv N (allocate N n s).2
        have : allocate N n s = (Except.error AllocError.badAlloc, s) := by
          simp [allocate, h0, hne]
        rw [this]
        exact ⟨le_refl _, hle, hz⟩

theorem runOps_inv (N : Nat) :
    ∀ ops s, PoolInv N s →
      PoolInv N (runOps N ops s) ∧ s.used ≤ (runOps N ops s).used := by
  intro ops
  induction ops with
  | nil => intro s hs; exact ⟨hs, le_refl _⟩
  | cons op ops ih =>
    intro s hs
    obtain ⟨hmono, hstep⟩ := applyOp_step N op s hs
    obtain ⟨hinv, hmono2⟩ := ih (applyOp N op s) hstep
    exact ⟨hinv, le_trans hmono hmono2⟩

theorem runOps_append (N : Nat) :
    ∀ ops op s, runOps N (ops ++ [op]) s = applyOp N op (runOps N ops s) := by
  intro ops
  induction ops with
  | nil => intro op s; rfl
  | cons o ops ih => intro op s; simp [runOps, ih]

/-- C7: in every state reachable from the fresh pool by any sequence of
`allocate` and `deallocate` calls, `used ≤ N` holds, and no single further
operation ever decreases `used`. -/
theorem c7_used_invariant (N : Nat) (ops : List PoolOp) (op : PoolOp) :
    (runOps N ops initialState).used ≤ N ∧
    (runOps N ops initialState).used ≤ (runOps N (ops ++ [op]) initialState).used := by
  have hinit : PoolInv N initialState := ⟨Nat.zero_le N, fun _ => rfl⟩
  obtain ⟨hinv, _⟩ := runOps_inv N ops initialState hinit
  refine ⟨hinv.1, ?_⟩
  rw [runOps_append]
  exact (applyOp_step N op _ hinv).1

-- Shared static pool state (C8).

/-- An allocator handle (a `StaticPoolAllocator<T,N>` object): a stateless
value carrying only its element type and capacity; the object itself has no
data members. -/
structure Handle where
  ty : TypeTag
  cap : Nat
deriving DecidableEq, Repr

/-- The process-wide static state: the `static inline State state_` member
gives one `PoolState` per template specialization, i.e. per
(element type, capacity) pairing. -/
def GlobalState : Type := TypeTag → Nat → PoolState

/-- The process start-up state: every pool default-initialized. -/
def initialGlobal : GlobalState := fun _ _ => initialState

/-- `h.allocate(n)`: every handle forwards to the one static pool of its
(element type, capacity) pairing. -/
def hAllocate (h : Handle) (n : Nat) (g : GlobalState) :
    Except AllocError Ptr × GlobalState :=
  let r := allocate h.cap n (g h.ty h.cap)
  (r.1, fun t c => if t = h.ty then (if c = h.cap then r.2 else g t c) else g t c)

/-- `h.deallocate(p, n)` on the one static pool of `h`'s pairing. -/
def hDeallocate (h : Handle) (p n : Nat) (g : GlobalState) : GlobalState :=
  fun t c =>
    if t = h.ty then (if c = h.cap then deallocate p n (g t c) else g t c)
    else g t c

/-- C8: handles are interchangeable proxies for the single per-pairing pool:
any two handles of the same element type and capacity produce identical
results and identical global states on `allocate` and on `deallocate`, and
their live allocations are bounded by the one shared capacity — after a
successful allocation through the first handle of a capacity-1 pairing, an
allocation through the second handle of that pairing fails exhausted. -/
theorem c8_shared_pool (h1 h2 : Handle) (g : GlobalState) (n p : Nat)
    (hty : h1.ty = h2.ty) (hcap : h1.cap = h2.cap) :
    hAllocate h1 n g = hAllocate h2 n g ∧
    hDeallocate h1 p n g = hDeallocate h2 p n g ∧
    (h1.cap = 1 →
      (hAllocate h2 1 (hAllocate h1 1 initialGlobal).2).1 =
        Except.error AllocError.badAlloc) := by
  obtain ⟨t1, c1⟩ := h1
  obtain ⟨t2, c2⟩ := h2
  simp only at hty hcap
  subst hty
  subst hcap
  refine ⟨rfl, rfl, ?_⟩
  intro hc1
  simp only at hc1
  subst hc1
  have hfirst : (hAllocate ⟨t1, 1⟩ 1 initialGlobal).2 t1 1 =
      (⟨true, 1, []⟩ : PoolState) := by
    simp [hAllocate, initialGlobal, initialState, allocate, ensurePool]
  simp only [hAllocate, hfirst]
  rfl

/-- C8 witness: two `int`-typed capacity-1 handles draw from the same pool,
so the second handle's allocation after the first handle's fails. -/
theorem c8_witness :
    (hAllocate ⟨TypeTag.tInt, 1⟩ 1
        (hAllocate ⟨TypeTag.tInt, 1⟩ 1 initialGlobal).2).1 =
      Except.error AllocError.badAlloc :=
  (c8_shared_pool ⟨TypeTag.tInt, 1⟩ ⟨TypeTag.tInt, 1⟩ initialGlobal 1 0
    rfl rfl).2.2 rfl

-- SimpleForwardList over the pool allocator (C9).

/-- `SimpleForwardList<T,Alloc>::Node`: a stored value and the `next` link
(a slot index, `none` for `nullptr`). -/
structure ListNode where
  value : Int
  next : Option Nat
deriving DecidableEq, Repr

/-- A `SimpleForwardList<int, StaticPoolAllocator<Node,N>>` object together
with its node storage: `pool` is the rebound allocator's static pool state,
`nodeAt` gives the constructed node in each pool slot, and `head_`, `tail_`
and `sz_` are the list's members. -/
structure FList where
  pool : PoolState
  nodeAt : Nat → Option ListNode
  head_ : Option Nat
  tail_ : Option Nat
  sz_ : Nat

/-- A default-constructed list over the fresh static pool. -/
def emptyFList : FList := ⟨initialState, fun _ => none, none, none, 0⟩

/-- `emplace_back(v)` for a list whose allocator is the capacity-`N` pool:
allocate one node, construct `Node(v, nullptr)` in it, and link it after
`tail_` (or make it the head of an empty list). A thrown `std::bad_alloc`
propagates to the caller. -/
def emplace_back (N : Nat) (v : Int) (L : FList) : Except AllocError FList :=
  match allocate N 1 L.pool with
  | (Except.error e, _) => Except.error e
  | (Except.ok none, _) => Except.error AllocError.badAlloc
  | (Except.ok (some i), pool1) =>
    let nodes1 := fun j => if j = i then some ⟨v, none⟩ else L.nodeAt j
    match L.head_, L.tail_ with
    | none, _ => Except.ok ⟨pool1, nodes1, some i, some i, L.sz_ + 1⟩
    | some hd, none => Except.ok ⟨pool1, nodes1, some hd, some i, L.sz_ + 1⟩
    | some hd, some t =>
      let nodes2 := fun j =>
        if j = t then
          match nodes1 t with
          | some nd => some ⟨nd.value, some i⟩
          | none => some ⟨v, some i⟩
        else nodes1 j
      Except.ok ⟨pool1, nodes2, some hd, some i, L.sz_ + 1⟩

/-- Walk the `next` chain collecting values, with explicit fuel (iteration
in the source walks until the `nullptr` link). -/
def chain (nodes : Nat → Option ListNode) : Nat → Option Nat → List Int
  | _, none => []
  | 0, some _ => []
  | fuel + 1, some i =>
    match nodes i with
    | none => []
    | some nd => nd.value :: chain nodes fuel nd.next

/-- The sequence observed by iterating the list begin-to-end. -/
def toSeq (L : FList) : List Int := chain L.nodeAt L.sz_ L.head_

/-- `push_back` each value in order, stopping at the first failure. -/
def pushAll (N : Nat) : List Int → FList → Except AllocError FList
  | [], L => Except.ok L
  | v :: vs, L =>
    match emplace_back N v L with
    | Except.error e => Except.error e
    | Except.ok L1 => pushAll N vs L1

/-- C9: for the capacity-10 list of the driver, pushing the integers 0..9
succeeds and iterating yields exactly `[0,1,…,9]` in insertion order; an
11th push fails by throwing `std::bad_alloc` (pool exhausted). -/
theorem c9_list_scenario :
    Except.map toSeq (pushAll 10 [0, 1, 2, 3, 4, 5, 6, 7, 8, 9] emptyFList) =
      Except.ok [0, 1, 2, 3, 4, 5, 6, 7, 8, 9] ∧
    pushAll 10 [0, 1, 2, 3, 4, 5, 6, 7, 8, 9, 10] emptyFList =
      Except.error AllocError.badAlloc := by
  constructor
  · rfl
  · rfl
